import Mathlib

/-!
# Verification of the LLMOps-Hunter demo scripts

Shallow embedding of the two Python scripts of the repository:

* `code/llmops_trend_demo.py`  — Pipeline A: toy RAG retrieval, rule-based
  answering, groundedness / latency / cost scoring and a markdown report.
* `code/rag_evaluation_demo.py` — Pipeline B: four ratio metrics over a
  hardcoded five-item dataset.

Modelling conventions:

* Python strings are modelled as `List Char`; `str.lower()` is modelled
  character-wise by `Char.toLower` (ASCII case mapping — all string data in
  the repository is ASCII apart from U+2011/U+2013 punctuation, which is
  case-invariant).
* Python floats are modelled as `ℚ`.  Every numeric value produced by the
  scripts (token counts divided by small denominators, multiples of 1e-5)
  is exactly representable, so the rational model agrees with IEEE double
  evaluation on all quantities the claims mention.  `round(x, n)` is
  modelled by `pyRound` (round half to even, as Python's `round`).
* `random.randint(0, 20)` is modelled by an explicit `rand : ℕ` parameter,
  constrained to `rand ≤ 20` where a claim needs it.
* The filesystem touched by `write_report` is modelled as an explicit
  state (`FS`): a set of existing directories plus a partial map from
  paths to file contents.  Paths are lists of segments.
-/

namespace LLMOps

unseal Rat.mul Rat.add Rat.sub Rat.inv

/-- `str.lower()` modelled character-wise (ASCII case mapping). -/
def lowerStr (s : List Char) : List Char := s.map Char.toLower

/-- The character class `[a-z0-9]` of the tokenizer's regex. -/
def isAlnumChar (c : Char) : Bool :=
  decide (('a' ≤ c ∧ c ≤ 'z') ∨ ('0' ≤ c ∧ c ≤ '9'))

/-- Coerce a Lean string literal to the `List Char` string model. -/
def chars (s : String) : List Char := s.data

/-- Left-to-right scanner for `re.findall(r"[a-z0-9]+", ·)`
(`llmops_trend_demo.py` line 80): `acc` holds the reversed characters of the
run currently being matched. -/
def tokenizeAux (acc : List Char) : List Char → List (List Char)
  | [] => if acc = [] then [] else [acc.reverse]
  | c :: cs =>
    if isAlnumChar c then
      tokenizeAux (c :: acc) cs
    else if acc = [] then
      tokenizeAux [] cs
    else
      acc.reverse :: tokenizeAux [] cs

/-- `tokenize` (`llmops_trend_demo.py` lines 78-80):
`re.findall(r"[a-z0-9]+", text.lower())`. -/
def tokenize (text : List Char) : List (List Char) :=
  tokenizeAux [] (lowerStr text)

/-- Spec-side rendering of "maximal runs of `[a-z0-9]`, all other characters
act as separators", written with `takeWhile`/`dropWhile` (independent of the
scanner above); compared with `tokenize` in claim C4. -/
def maxRuns : List Char → List (List Char)
  | [] => []
  | c :: cs =>
    if isAlnumChar c then
      (c :: cs.takeWhile isAlnumChar) :: maxRuns (cs.dropWhile isAlnumChar)
    else
      maxRuns cs
termination_by l => l.length
decreasing_by
  · simp only [List.length_cons]
    exact Nat.lt_succ_of_le (List.dropWhile_sublist _).length_le
  · simp only [List.length_cons]
    exact Nat.lt_succ_of_le (Nat.le_refl _)

/-- A corpus document (`llmops_trend_demo.py` lines 30-54): dict with keys
`id`, `title`, `text`. -/
structure Doc where
  id : List Char
  title : List Char
  text : List Char
deriving DecidableEq, Repr

/-- First `CORPUS` entry (`llmops_trend_demo.py` lines 31-36). -/
def doc1 : Doc :=
  { id := chars "doc1"
  , title := chars "LLM Evaluation Best Practices"
  , text := chars ("Groundedness measures how well an LLM answer relies on the provided context. " ++
      "Toxicity, latency and cost are also common evaluation metrics.") }

/-- Second `CORPUS` entry (`llmops_trend_demo.py` lines 37-45). -/
def doc2 : Doc :=
  { id := chars "doc2"
  , title := chars "Cost Optimization"
  , text := chars ("To reduce inference cost, use smaller models and caching. " ++
      "Selective routing can pick the right model size on demand.") }

/-- Third `CORPUS` entry (`llmops_trend_demo.py` lines 46-53); the text
contains the U+2011 non-breaking hyphens of the source verbatim. -/
def doc3 : Doc :=
  { id := chars "doc3"
  , title := chars "Agentic RAG"
  , text := chars ("Agentic RAG adds planning and tool use to retrieval‑augmented generation. " ++
      "It often re‑queries or verifies intermediate results.") }

/-- `CORPUS` (`llmops_trend_demo.py` lines 30-54). -/
def CORPUS : List Doc := [doc1, doc2, doc3]

/-- Per-document retrieval score (`llmops_trend_demo.py` lines 85-89):
`len(set(tokenize(question)) & set(tokenize(doc["text"] + " " + doc["title"])))`.
Set intersection cardinality is modelled by counting the distinct question
tokens that also occur among the document tokens. -/
def score (question : List Char) (d : Doc) : ℕ :=
  ((tokenize question).dedup.filter
    (fun t => decide (t ∈ tokenize (d.text ++ ' ' :: d.title)))).length

/-- Stable insertion into a list sorted by descending key: the new element is
placed before the first element whose key is `≤` its own.  Building block of
`sortDescBy`. -/
def insertDesc (key : α → ℕ) (x : α) : List α → List α
  | [] => [x]
  | y :: ys => if key y ≤ key x then x :: y :: ys else y :: insertDesc key x ys

/-- `scored.sort(key=lambda x: x[0], reverse=True)`
(`llmops_trend_demo.py` line 91).  Python's `list.sort` is a stable sort and
documents that `reverse=True` preserves stability, so it is modelled by the
stable descending insertion sort: equal-key elements keep their original
relative order. -/
def sortDescBy (key : α → ℕ) : List α → List α
  | [] => []
  | x :: xs => insertDesc key x (sortDescBy key xs)

/-- `retrieve` (`llmops_trend_demo.py` lines 83-92), generalised over the
corpus it scans (the source closes over the global `CORPUS`); returns `none`
exactly when the corpus is empty (where the source's `scored[0]` raises). -/
def retrieveFrom (corpus : List Doc) (question : List Char) : Option Doc :=
  ((sortDescBy Prod.fst (corpus.map (fun d => (score question d, d)))).head?).map Prod.snd

/-- `retrieve` proper: `retrieveFrom` applied to the global `CORPUS`. -/
def retrieve (question : List Char) : Option Doc :=
  retrieveFrom CORPUS question

/-- Leading-match test: does `haystack` start with `needle`? -/
def startsList : List Char → List Char → Bool
  | [], _ => true
  | _ :: _, [] => false
  | a :: as, b :: bs => a == b && startsList as bs

/-- `needle in haystack` for Python strings: contiguous substring test. -/
def substr (needle haystack : List Char) : Bool :=
  match haystack with
  | [] => needle.isEmpty
  | _ :: t => startsList needle haystack || substr needle t

/-- `doc["text"].split(".")` (`llmops_trend_demo.py` line 105): split on every
occurrence of `'.'`; splitting the empty string yields `[[]]`, as in Python. -/
def splitDot : List Char → List (List Char)
  | [] => [[]]
  | c :: cs =>
    if c = '.' then [] :: splitDot cs
    else
      match splitDot cs with
      | [] => [[c]]
      | t :: ts => (c :: t) :: ts

/-- `answer_question` (`llmops_trend_demo.py` lines 95-105).  The duplicated
`"reduce inference cost" in q` test of line 100 is kept verbatim. -/
def answer_question (question : List Char) (doc : Doc) : List Char :=
  let q := lowerStr question
  if substr (chars "groundedness") q then
    chars "It measures how much the answer relies on the provided context."
  else if substr (chars "reduce inference cost") q ||
      substr (chars "reduce inference cost") q || substr (chars "reduce cost") q then
    chars "Use smaller models and caching."
  else if substr (chars "agentic rag") q then
    chars "It adds planning and tool use."
  else
    (splitDot doc.text).headI ++ ['.']

/-- `compute_groundedness` (`llmops_trend_demo.py` lines 108-115). -/
def compute_groundedness (answer context : List Char) : ℚ :=
  let ansTokens := tokenize answer
  let ctxTokens := tokenize context
  if ansTokens = [] then 0
  else ((ansTokens.filter (fun t => decide (t ∈ ctxTokens))).length : ℚ) / ansTokens.length

/-- Floor of a rational, computed from its normalised representation
(denominator positive, so flooring division of `num` by `den`). -/
def ratFloor (q : ℚ) : ℤ := q.num.fdiv q.den

/-- Round a rational to the nearest integer, ties to even — the rounding of
Python's builtin `round`. -/
def roundHalfEven (q : ℚ) : ℤ :=
  let f := ratFloor q
  let r := q - f
  if r < 1/2 then f
  else if 1/2 < r then f + 1
  else if f % 2 = 0 then f else f + 1

/-- Python's `round(x, n)` on the rational model of floats. -/
def pyRound (q : ℚ) (n : ℕ) : ℚ :=
  (roundHalfEven (q * 10 ^ n) : ℚ) / 10 ^ n

/-- `simulate_latency_and_cost` (`llmops_trend_demo.py` lines 118-123), with
the draw `random.randint(0, 20)` passed in as `rand`.  All the float
arithmetic of line 121 is exact on integers of this size, and `int` truncates
an exact integer to itself, so the latency is a plain natural number. -/
def simulate_latency_and_cost (answer : List Char) (rand : ℕ) : ℕ × ℚ :=
  let tokens := max 1 (tokenize answer).length
  (50 + 2 * tokens + rand, pyRound ((1 / 100000) * tokens) 6)

/-- A Pipeline B dataset item (`rag_evaluation_demo.py` lines 17-68): dict
with keys `query`, `expected_answer`, `retrieved_contexts`,
`predicted_answer`. -/
structure EvalItem where
  query : List Char
  expected_answer : List Char
  retrieved_contexts : List (List Char)
  predicted_answer : List Char
deriving DecidableEq, Repr

/-- `DATASET` (`rag_evaluation_demo.py` lines 17-68). -/
def DATASET : List EvalItem :=
  [ { query := chars "What is the capital of France?"
    , expected_answer := chars "Paris"
    , retrieved_contexts :=
        [ chars "Paris is the capital of France."
        , chars "France is located in Europe."
        , chars "The population of the city is about 2 million." ]
    , predicted_answer := chars "Paris is the capital of France." }
  , { query := chars "Who wrote the novel 1984?"
    , expected_answer := chars "George Orwell"
    , retrieved_contexts :=
        [ chars "1984 is a dystopian novel by George Orwell."
        , chars "It was published in 1949."
        , chars "Animal Farm is another book by the same author." ]
    , predicted_answer := chars "George Orwell wrote 1984." }
  , { query := chars "What is the largest planet in our solar system?"
    , expected_answer := chars "Jupiter"
    , retrieved_contexts :=
        [ chars "Jupiter is the largest planet in the solar system."
        , chars "Mars is smaller than Earth."
        , chars "Saturn has large rings." ]
    , predicted_answer := chars "Jupiter" }
  , { query := chars "When did the Second World War end?"
    , expected_answer := chars "1945"
    , retrieved_contexts :=
        [ chars "World War II ended in 1945."
        , chars "The war started in 1939."
        , chars "It involved many nations around the globe." ]
    , predicted_answer := chars "It ended in 1945." }
  , { query := chars "Who discovered penicillin?"
    , expected_answer := chars "Alexander Fleming"
    , retrieved_contexts :=
        [ chars "Alexander Fleming discovered penicillin in 1928."
        , chars "Penicillin was the first true antibiotic."
        , chars "The discovery revolutionized medicine." ]
    , predicted_answer := chars "Alexander Fleming" } ]

/-- `relevant_contexts` of one loop iteration (`rag_evaluation_demo.py`
line 81): how many contexts contain the lowercased expected answer. -/
def relevantContexts (item : EvalItem) : ℕ :=
  (item.retrieved_contexts.filter
    (fun c => substr (lowerStr item.expected_answer) (lowerStr c))).length

/-- `recall` of one loop iteration (`rag_evaluation_demo.py` line 83):
`min(relevant_contexts / 1.0, 1.0)`. -/
def itemRecall (item : EvalItem) : ℚ :=
  min ((relevantContexts item : ℚ) / 1) 1

/-- `precision` of one loop iteration (`rag_evaluation_demo.py` line 85):
`relevant_contexts / len(contexts) if contexts else 0.0`. -/
def itemPrecision (item : EvalItem) : ℚ :=
  if item.retrieved_contexts = [] then 0
  else (relevantContexts item : ℚ) / item.retrieved_contexts.length

/-- `answer_rel` of one loop iteration (`rag_evaluation_demo.py` line 88):
1.0 iff the lowercased expected answer is a substring of the lowercased
predicted answer. -/
def itemAnswerRel (item : EvalItem) : ℚ :=
  if substr (lowerStr item.expected_answer) (lowerStr item.predicted_answer) then 1 else 0

/-- `faithfulness` of one loop iteration (`rag_evaluation_demo.py`
lines 90-92): 1.0 iff some context contains the lowercased predicted answer
or is contained in it. -/
def itemFaithfulness (item : EvalItem) : ℚ :=
  if item.retrieved_contexts.any (fun c =>
      substr (lowerStr item.predicted_answer) (lowerStr c) ||
      substr (lowerStr c) (lowerStr item.predicted_answer)) then 1 else 0

/-- The result record of Pipeline B's `evaluate`
(`rag_evaluation_demo.py` lines 100-105). -/
structure MetricsSummary where
  contextual_recall : ℚ
  contextual_precision : ℚ
  answer_relevancy : ℚ
  faithfulness : ℚ
deriving DecidableEq, Repr

/-- `n = float(len(dataset)) or 1.0` (`rag_evaluation_demo.py` line 99):
`0.0` is falsy in Python, so an empty dataset yields `1.0`. -/
def datasetDenom (dataset : List EvalItem) : ℚ :=
  if dataset.length = 0 then 1 else (dataset.length : ℚ)

/-- Pipeline B `evaluate` (`rag_evaluation_demo.py` lines 70-105): the
running totals of the loop are the sums of the per-item metrics. -/
def evaluate (dataset : List EvalItem) : MetricsSummary :=
  let n := datasetDenom dataset
  { contextual_recall := pyRound (((dataset.map itemRecall).sum) / n) 2
  , contextual_precision := pyRound (((dataset.map itemPrecision).sum) / n) 2
  , answer_relevancy := pyRound (((dataset.map itemAnswerRel).sum) / n) 2
  , faithfulness := pyRound (((dataset.map itemFaithfulness).sum) / n) 2 }

/-- One Pipeline A result record (`llmops_trend_demo.py` lines 137-145). -/
structure QResult where
  query_id : List Char
  question : List Char
  doc_id : List Char
  answer : List Char
  groundedness : ℚ
  latency_ms : ℕ
  cost_usd : ℚ
deriving Repr

/-- Fixed-point decimal formatting, Python's `f"{x:.nf}"` on the rational
model: round half to even at `n` decimal digits, then print with the
fractional part zero-padded to exactly `n` digits. -/
def fmtFixed (q : ℚ) (n : ℕ) : String :=
  let scaled := roundHalfEven (q * 10 ^ n)
  let a := scaled.natAbs
  let ip := a / 10 ^ n
  let fp := a % 10 ^ n
  let fpStr := Nat.repr fp
  let pad := String.mk (List.replicate (n - fpStr.length) '0')
  (if scaled < 0 then "-" else "") ++ Nat.repr ip ++ "." ++ pad ++ fpStr

/-- The markdown content built by `write_report`
(`llmops_trend_demo.py` lines 153-174 and the final `"\n".join(lines)`).
The averages divide by `len(results)`; on an empty result list the source
raises `ZeroDivisionError` (total division of the rational model returns 0
there), so the theorems about `write_report` assume a non-empty result
list. -/
def renderReport (date : String) (results : List QResult) : String :=
  let avg_g := (results.map (fun r => r.groundedness)).sum / (results.length : ℚ)
  let avg_lat := ((results.map (fun r => r.latency_ms)).sum : ℚ) / (results.length : ℚ)
  let avg_cost := (results.map (fun r => r.cost_usd)).sum / (results.length : ℚ)
  let header :=
    [ "# RAGOps Evaluation – " ++ date
    , ""
    , "## Summary"
    , "- Average groundedness: **" ++ fmtFixed avg_g 3 ++ "**"
    , "- Average latency (ms): **" ++ fmtFixed avg_lat 1 ++ "**"
    , "- Average cost (USD): **" ++ fmtFixed avg_cost 6 ++ "**"
    , ""
    , "## Detailed Results"
    , "|Query|Doc|Groundedness|Latency (ms)|Cost (USD)|"
    , "|---|---|---|---|---|" ]
  let rows := results.map (fun r =>
    "|" ++ String.mk r.query_id ++ "|" ++ String.mk r.doc_id ++ "|" ++
      fmtFixed r.groundedness 3 ++ "|" ++ Nat.repr r.latency_ms ++ "|" ++
      fmtFixed r.cost_usd 6 ++ "|")
  String.intercalate "\n" (header ++ rows ++ [""])

/-- Filesystem state threaded through `write_report`: the set of existing
directories and a partial map from paths (lists of segments) to file
contents. -/
structure FS where
  dirs : List (List String)
  files : List String → Option String

/-- All initial segment lists of a path, the directories that
`Path.mkdir(parents=True, exist_ok=True)` guarantees to exist. -/
def initSegs : List String → List (List String)
  | [] => [[]]
  | s :: rest => [] :: (initSegs rest).map (fun p => s :: p)

/-- `report_dir / f"{date_str}-ragops-eval.md"`
(`llmops_trend_demo.py` lines 151-152), with the UTC date string passed in
explicitly. -/
def reportPath (report_dir : List String) (date : String) : List String :=
  report_dir ++ [date ++ "-ragops-eval.md"]

/-- `write_report` (`llmops_trend_demo.py` lines 149-179) as a filesystem
transformer: `report_dir.mkdir(parents=True, exist_ok=True)` makes the
directory and all its parents exist, and `open(report_path, "w")` followed
by `f.write` replaces whatever was stored at the report path. -/
def write_report (results : List QResult) (fs : FS) (report_dir : List String)
    (date : String) : FS :=
  let content := renderReport date results
  let p := reportPath report_dir date
  { dirs := initSegs report_dir ++ fs.dirs
  , files := fun q => if q = p then some content else fs.files q }

/-- The ambient effect sources available to the scripts: the
`random.randint` stream and a clock.  Pipeline A's latency simulation draws
from the former; Pipeline B's `evaluate` touches neither. -/
structure Ambient where
  randSeq : ℕ → ℕ
  clock : ℕ

/-- Pipeline B's `evaluate` loop (`rag_evaluation_demo.py` lines 77-97)
re-transcribed with the ambient effect sources in scope, for the
determinism claim C10: the loop body reads only the dataset item. -/
def evalTotalsAmb (amb : Ambient) : List EvalItem → ℚ × ℚ × ℚ × ℚ
  | [] => (0, 0, 0, 0)
  | item :: rest =>
    let (r, p, a, f) := evalTotalsAmb amb rest
    (itemRecall item + r, itemPrecision item + p,
      itemAnswerRel item + a, itemFaithfulness item + f)

/-- Pipeline B's `evaluate` with the ambient effect sources in scope
(claim C10). -/
def evaluateWithAmbient (amb : Ambient) (dataset : List EvalItem) : MetricsSummary :=
  let n := datasetDenom dataset
  let (r, p, a, f) := evalTotalsAmb amb dataset
  { contextual_recall := pyRound (r / n) 2
  , contextual_precision := pyRound (p / n) 2
  , answer_relevancy := pyRound (a / n) 2
  , faithfulness := pyRound (f / n) 2 }

/-- Spec-side "first maximum" selector (claim C2): scan the list and keep
the earliest element whose key is maximal. -/
def firstMaxBy (key : α → ℕ) : List α → Option α
  | [] => none
  | x :: xs =>
    match firstMaxBy key xs with
    | none => some x
    | some y => if key y ≤ key x then some x else some y

/-- A sample Pipeline A result used to instantiate the report-writer
theorem. -/
def sampleResult : QResult :=
  ⟨chars "q1", chars "What does groundedness measure in LLM evaluation?",
    chars "doc1", chars "It measures how much the answer relies on the provided context.",
    1, 56, 3 / 100000⟩

/-- An empty filesystem state. -/
def emptyFS : FS := ⟨[], fun _ => none⟩

/-! ## Theorems -/

/-- Claim C1, counterexample: on the hardcoded 5-item `DATASET`, Pipeline B's
`evaluate` does not return faithfulness 1.0 — the predicted answers of items
2 and 4 ("George Orwell wrote 1984.", "It ended in 1945.") neither contain
nor are contained in any of their retrieved contexts, so the faithfulness
average is 3/5. -/
theorem c1_faithfulness_not_one : (evaluate DATASET).faithfulness ≠ 1 := by
  decide

/-- Claim C1 (amended): `evaluate DATASET` returns contextual_recall = 1.0
and answer_relevancy = 1.0, but faithfulness = 0.6 (each rounded to 2
decimal places). -/
theorem c1_evaluate_dataset :
    (evaluate DATASET).contextual_recall = 1 ∧
    (evaluate DATASET).answer_relevancy = 1 ∧
    (evaluate DATASET).faithfulness = 3 / 5 := by
  decide

/-- Claim C7: Pipeline B's `evaluate` never divides by zero on empty
collections — on the empty dataset the denominator is taken to be 1 and all
four metrics are 0.0, and an item with no retrieved contexts contributes
precision 0.0 through the explicit guard. -/
theorem c7_empty_guards :
    evaluate [] = ⟨0, 0, 0, 0⟩ ∧
    (∀ item : EvalItem, item.retrieved_contexts = [] → itemPrecision item = 0) := by
  constructor
  · decide
  · intro item h
    simp [itemPrecision, h]

/-- Witness for C7 at a concrete item with an empty context list. -/
theorem c7_empty_guards_witness :
    itemPrecision ⟨chars "q", chars "a", [], chars "p"⟩ = 0 :=
  c7_empty_guards.2 _ rfl

/-- Helper for C10: the re-transcribed loop totals are the sums of the
per-item metrics, independently of the ambient sources. -/
theorem evalTotalsAmb_eq (amb : Ambient) (l : List EvalItem) :
    evalTotalsAmb amb l =
      ((l.map itemRecall).sum, (l.map itemPrecision).sum,
        (l.map itemAnswerRel).sum, (l.map itemFaithfulness).sum) := by
  induction l with
  | nil => rfl
  | cons item rest ih => simp [evalTotalsAmb, ih]

/-- Claim C10: Pipeline B's `evaluate` is deterministic — evaluating the
same dataset under any two ambient environments (randomness stream, clock)
yields the same `MetricsSummary`, and it agrees with the ambient-free
`evaluate`. -/
theorem c10_evaluate_deterministic :
    ∀ (dataset : List EvalItem) (a1 a2 : Ambient),
      evaluateWithAmbient a1 dataset = evaluateWithAmbient a2 dataset ∧
      evaluateWithAmbient a1 dataset = evaluate dataset := by
  intro dataset a1 a2
  have h : ∀ a : Ambient, evaluateWithAmbient a dataset = evaluate dataset := by
    intro a
    simp [evaluateWithAmbient, evalTotalsAmb_eq, evaluate]
  exact ⟨(h a1).trans (h a2).symm, h a1⟩

/-- Claim C5: `answer_question` evaluates its substring rules against the
lowercased question in order with first match winning: the groundedness rule
first, then the cost rule, then the agentic-rag rule; in particular any
question containing both "groundedness" and "agentic rag" gets the
groundedness canned answer. -/
theorem c5_rule_order :
    (∀ (q : List Char) (doc : Doc),
      substr (chars "groundedness") (lowerStr q) = true →
      answer_question q doc =
        chars "It measures how much the answer relies on the provided context.") ∧
    (∀ (q : List Char) (doc : Doc),
      substr (chars "groundedness") (lowerStr q) = false →
      (substr (chars "reduce inference cost") (lowerStr q) = true ∨
        substr (chars "reduce cost") (lowerStr q) = true) →
      answer_question q doc = chars "Use smaller models and caching.") ∧
    (∀ (q : List Char) (doc : Doc),
      substr (chars "groundedness") (lowerStr q) = false →
      substr (chars "reduce inference cost") (lowerStr q) = false →
      substr (chars "reduce cost") (lowerStr q) = false →
      substr (chars "agentic rag") (lowerStr q) = true →
      answer_question q doc = chars "It adds planning and tool use.") ∧
    (∀ (q : List Char) (doc : Doc),
      substr (chars "groundedness") (lowerStr q) = true →
      substr (chars "agentic rag") (lowerStr q) = true →
      answer_question q doc =
        chars "It measures how much the answer relies on the provided context.") := by
  refine ⟨?_, ?_, ?_, ?_⟩
  · intro q doc h1
    simp [answer_question, h1]
  · intro q doc h1 h2
    rcases h2 with h2 | h2 <;> simp [answer_question, h1, h2]
  · intro q doc h1 h2 h3 h4
    simp [answer_question, h1, h2, h3, h4]
  · intro q doc h1 _
    simp [answer_question, h1]

/-- Witness for C5: a question containing both "groundedness" and
"agentic rag" receives the groundedness canned answer. -/
theorem c5_rule_order_witness :
    answer_question (chars "groundedness of agentic rag?") doc1 =
      chars "It measures how much the answer relies on the provided context." :=
  c5_rule_order.2.2.2 (chars "groundedness of agentic rag?") doc1
    (by decide) (by decide)

/-- Rounding an integer-valued rational is the identity. -/
theorem roundHalfEven_intCast (n : ℤ) : roundHalfEven (n : ℚ) = n := by
  unfold roundHalfEven ratFloor
  rw [Rat.num_intCast, Rat.den_intCast]
  simp only [Nat.cast_one, Int.fdiv_one]
  norm_num

/-- Values of the form `t × 0.00001` carry at most five decimal digits, so
rounding them to six decimal places is exact. -/
theorem pyRound_token_cost (t : ℕ) :
    pyRound ((1 / 100000 : ℚ) * t) 6 = (t : ℚ) / 100000 := by
  have h : ((1 / 100000 : ℚ) * t) * 10 ^ 6 = ((10 * t : ℤ) : ℚ) := by
    push_cast
    ring
  unfold pyRound
  rw [h, roundHalfEven_intCast]
  push_cast
  ring

/-- Claim C6: `simulate_latency_and_cost("a b c")` returns cost exactly
0.00003 and, for every admissible random draw, a latency in [56, 76]; in
general the cost is `max(1, tokens) × 0.00001` (the 6-decimal rounding is
exact) and the latency lies in `[50 + 2t, 50 + 2t + 20]`. -/
theorem c6_latency_cost :
    (∀ rand : ℕ, rand ≤ 20 →
      (simulate_latency_and_cost (chars "a b c") rand).2 = 3 / 100000 ∧
      56 ≤ (simulate_latency_and_cost (chars "a b c") rand).1 ∧
      (simulate_latency_and_cost (chars "a b c") rand).1 ≤ 76) ∧
    (∀ (answer : List Char) (rand : ℕ), rand ≤ 20 →
      (simulate_latency_and_cost answer rand).2 =
        ((max 1 (tokenize answer).length : ℕ) : ℚ) / 100000 ∧
      50 + 2 * max 1 (tokenize answer).length ≤ (simulate_latency_and_cost answer rand).1 ∧
      (simulate_latency_and_cost answer rand).1 ≤
        50 + 2 * max 1 (tokenize answer).length + 20) := by
  have general : ∀ (answer : List Char) (rand : ℕ), rand ≤ 20 →
      (simulate_latency_and_cost answer rand).2 =
        ((max 1 (tokenize answer).length : ℕ) : ℚ) / 100000 ∧
      50 + 2 * max 1 (tokenize answer).length ≤ (simulate_latency_and_cost answer rand).1 ∧
      (simulate_latency_and_cost answer rand).1 ≤
        50 + 2 * max 1 (tokenize answer).length + 20 := by
    intro answer rand hr
    simp only [simulate_latency_and_cost]
    refine ⟨pyRound_token_cost _, ?_, ?_⟩ <;> omega
  refine ⟨?_, general⟩
  intro rand hr
  have h3 : max 1 (tokenize (chars "a b c")).length = 3 := by decide
  have := general (chars "a b c") rand hr
  rw [h3] at this
  exact_mod_cast this

/-- Witness for C6 at the draw `rand = 0`. -/
theorem c6_latency_cost_witness :
    (simulate_latency_and_cost (chars "a b c") 0).2 = 3 / 100000 ∧
    56 ≤ (simulate_latency_and_cost (chars "a b c") 0).1 ∧
    (simulate_latency_and_cost (chars "a b c") 0).1 ≤ 76 :=
  c6_latency_cost.1 0 (by decide)

/-- Claim C3: `compute_groundedness` returns 0.0 on a token-free answer and
otherwise the fraction of answer-token occurrences (duplicates counted
individually) that appear among the context's tokens; the result is always
in [0, 1]. -/
theorem c3_groundedness (answer context : List Char) :
    (tokenize answer = [] → compute_groundedness answer context = 0) ∧
    (tokenize answer ≠ [] →
      compute_groundedness answer context =
        (((tokenize answer).filter (fun t => decide (t ∈ tokenize context))).length : ℚ) /
          ((tokenize answer).length : ℚ)) ∧
    0 ≤ compute_groundedness answer context ∧
    compute_groundedness answer context ≤ 1 := by
  by_cases h : tokenize answer = []
  · refine ⟨fun _ => ?_, fun hc => absurd h hc, ?_, ?_⟩ <;>
      simp [compute_groundedness, h]
  · have hval : compute_groundedness answer context =
        (((tokenize answer).filter (fun t => decide (t ∈ tokenize context))).length : ℚ) /
          ((tokenize answer).length : ℚ) := by
      simp [compute_groundedness, h]
    refine ⟨fun hc => absurd hc h, fun _ => hval, ?_, ?_⟩
    · rw [hval]
      positivity
    · rw [hval]
      have hlen : 0 < (tokenize answer).length := List.length_pos.mpr h
      rw [div_le_one (by exact_mod_cast hlen)]
      exact_mod_cast (tokenize answer).length_filter_le _

/-- Witness for C3: a concrete answer with a duplicated token, two of whose
three tokens occur in the context. -/
theorem c3_groundedness_witness :
    compute_groundedness (chars "a a b") (chars "c a!") = 2 / 3 := by
  have h := (c3_groundedness (chars "a a b") (chars "c a!")).2.1 (by decide)
  rw [h]
  decide

/-- `split(".")` never produces an empty list. -/
theorem splitDot_ne_nil (l : List Char) : splitDot l ≠ [] := by
  induction l with
  | nil => simp [splitDot]
  | cons c cs ih =>
    simp only [splitDot]
    split
    · simp
    · split <;> simp

/-- The first component of `split(".")` is everything before the first
period. -/
theorem splitDot_headI (l : List Char) :
    (splitDot l).headI = l.takeWhile (fun c => c != '.') := by
  induction l with
  | nil => rfl
  | cons c cs ih =>
    by_cases h : c = '.'
    · simp [splitDot, h, List.takeWhile_cons]
    · simp only [splitDot, if_neg h]
      cases hs : splitDot cs with
      | nil => exact absurd hs (splitDot_ne_nil cs)
      | cons t ts =>
        rw [hs] at ih
        simp only [List.headI] at ih
        simp [List.takeWhile_cons, h, ih]

/-- Claim C9: when none of the three canned-answer rules matches, the
fallback answer is the document text up to the first period with a period
appended; with no period in the text the whole text is used, and the
fallback always ends in a period and is non-empty. -/
theorem c9_fallback (q : List Char) (doc : Doc)
    (h1 : substr (chars "groundedness") (lowerStr q) = false)
    (h2 : substr (chars "reduce inference cost") (lowerStr q) = false)
    (h3 : substr (chars "reduce cost") (lowerStr q) = false)
    (h4 : substr (chars "agentic rag") (lowerStr q) = false) :
    answer_question q doc = doc.text.takeWhile (fun c => c != '.') ++ ['.'] ∧
    ('.' ∉ doc.text → answer_question q doc = doc.text ++ ['.']) ∧
    answer_question q doc ≠ [] ∧
    (answer_question q doc).getLast? = some '.' := by
  have hv : answer_question q doc = doc.text.takeWhile (fun c => c != '.') ++ ['.'] := by
    simp [answer_question, h1, h2, h3, h4, splitDot_headI]
  refine ⟨hv, fun hp => ?_, ?_, ?_⟩
  · rw [hv, List.takeWhile_eq_self_iff.mpr ?_]
    intro a ha
    simp only [bne_iff_ne, ne_eq]
    exact fun hc => hp (hc ▸ ha)
  · rw [hv]
    simp
  · rw [hv]
    exact List.getLast?_concat _

/-- Witness for C9: a question matching no rule, asked against `doc1`. -/
theorem c9_fallback_witness :
    answer_question (chars "why?") doc1 =
      doc1.text.takeWhile (fun c => c != '.') ++ ['.'] ∧
    ('.' ∉ doc1.text → answer_question (chars "why?") doc1 = doc1.text ++ ['.']) ∧
    answer_question (chars "why?") doc1 ≠ [] ∧
    (answer_question (chars "why?") doc1).getLast? = some '.' :=
  c9_fallback (chars "why?") doc1 (by decide) (by decide) (by decide) (by decide)

/-- Head of a stable descending insertion: the inserted element when its key
dominates the old head's, otherwise the old head. -/
theorem insertDesc_head (key : α → ℕ) (x : α) (l : List α) :
    (insertDesc key x l).head? =
      some (match l with
        | [] => x
        | y :: _ => if key y ≤ key x then x else y) := by
  cases l with
  | nil => rfl
  | cons y ys =>
    simp only [insertDesc]
    split <;> simp

/-- The head of the stable descending sort is the earliest maximum. -/
theorem sortDescBy_head (key : α → ℕ) (l : List α) :
    (sortDescBy key l).head? = firstMaxBy key l := by
  induction l with
  | nil => rfl
  | cons x xs ih =>
    rw [sortDescBy, insertDesc_head]
    simp only [firstMaxBy, ← ih]
    cases hs : sortDescBy key xs with
    | nil => rfl
    | cons h t =>
      simp only [List.head?_cons]
      split <;> rfl

/-- `firstMaxBy` always finds something on a non-empty list. -/
theorem firstMaxBy_ne_none (key : α → ℕ) (x : α) (xs : List α) :
    firstMaxBy key (x :: xs) ≠ none := by
  simp only [firstMaxBy]
  cases firstMaxBy key xs with
  | none => simp
  | some y =>
    show (if key y ≤ key x then some x else some y) ≠ none
    split <;> simp

/-- On a non-empty list, `firstMaxBy` returns an element of maximal key that
strictly beats everything before it in list order. -/
theorem firstMaxBy_first_max (key : α → ℕ) (l : List α) (hl : l ≠ []) :
    ∃ d pre post, firstMaxBy key l = some d ∧ l = pre ++ d :: post ∧
      (∀ e ∈ pre, key e < key d) ∧ (∀ e ∈ l, key e ≤ key d) := by
  induction l with
  | nil => exact absurd rfl hl
  | cons x xs ih =>
    cases hm : firstMaxBy key xs with
    | none =>
      have hxs : xs = [] := by
        cases hc : xs with
        | nil => rfl
        | cons y ys => rw [hc] at hm; exact absurd hm (firstMaxBy_ne_none key y ys)
      subst hxs
      refine ⟨x, [], [], ?_, by simp, by simp, by simp⟩
      simp [firstMaxBy]
    | some d0 =>
      obtain ⟨d, pre, post, h1, h2, h3, h4⟩ :=
        ih (fun hn => by simp [hn, firstMaxBy] at hm)
      by_cases hk : key d ≤ key x
      · refine ⟨x, [], xs, ?_, by simp, by simp, ?_⟩
        · simp [firstMaxBy, h1, hk]
        · intro e he
          rcases List.mem_cons.mp he with rfl | he
          · exact Nat.le_refl _
          · exact (h4 e he).trans hk
      · refine ⟨d, x :: pre, post, ?_, by simp [h2], ?_, ?_⟩
        · simp [firstMaxBy, h1, hk]
        · intro e he
          rcases List.mem_cons.mp he with rfl | he
          · exact Nat.lt_of_not_le hk
          · exact h3 e he
        · intro e he
          rcases List.mem_cons.mp he with rfl | he
          · exact Nat.le_of_lt (Nat.lt_of_not_le hk)
          · exact h4 e he

/-- `firstMaxBy` commutes with mapping a scored copy over the list. -/
theorem firstMaxBy_map (key : β → ℕ) (f : α → β) (l : List α) :
    firstMaxBy key (l.map f) = (firstMaxBy (fun a => key (f a)) l).map f := by
  induction l with
  | nil => rfl
  | cons x xs ih =>
    simp only [List.map_cons, firstMaxBy, ih]
    cases hm : firstMaxBy (fun a => key (f a)) xs with
    | none => simp
    | some y =>
      simp only [Option.map_some']
      split <;> simp

/-- `retrieve`, i.e. head of the stable descending sort of the scored
corpus, computes the earliest maximal-score document. -/
theorem retrieveFrom_eq_firstMaxBy (corpus : List Doc) (q : List Char) :
    retrieveFrom corpus q = firstMaxBy (score q) corpus := by
  unfold retrieveFrom
  rw [sortDescBy_head, firstMaxBy_map]
  cases firstMaxBy (fun d => score q d) corpus <;> simp

/-- Claim C2: over any non-empty corpus, `retrieve` returns the document of
maximal title+text token overlap with the question, ties broken in favour of
the earliest corpus position; on the fixed `CORPUS`, the groundedness
question retrieves `doc1`. -/
theorem c2_retrieve :
    (∀ (corpus : List Doc) (q : List Char), corpus ≠ [] →
      ∃ d pre post, retrieveFrom corpus q = some d ∧
        corpus = pre ++ d :: post ∧
        (∀ e ∈ pre, score q e < score q d) ∧
        (∀ e ∈ corpus, score q e ≤ score q d)) ∧
    retrieve (chars "What does groundedness measure in LLM evaluation?") = some doc1 := by
  constructor
  · intro corpus q hne
    simp only [retrieveFrom_eq_firstMaxBy]
    exact firstMaxBy_first_max (score q) corpus hne
  · decide

/-- Witness for C2 on the fixed corpus and an arbitrary question. -/
theorem c2_retrieve_witness :
    ∃ d pre post, retrieveFrom CORPUS (chars "hello world") = some d ∧
      CORPUS = pre ++ d :: post ∧
      (∀ e ∈ pre, score (chars "hello world") e < score (chars "hello world") d) ∧
      (∀ e ∈ CORPUS, score (chars "hello world") e ≤ score (chars "hello world") d) :=
  c2_retrieve.1 CORPUS (chars "hello world") (by decide)

/-- The scanner invariant: with `acc` holding a partially matched run
(reversed), `tokenizeAux` completes that run with the longest alphanumeric
stretch ahead and continues as `maxRuns` on the rest. -/
theorem tokenizeAux_eq (cs : List Char) :
    ∀ acc : List Char,
      tokenizeAux acc cs =
        if acc = [] then maxRuns cs
        else (acc.reverse ++ cs.takeWhile isAlnumChar) ::
          maxRuns (cs.dropWhile isAlnumChar) := by
  induction cs with
  | nil =>
    intro acc
    by_cases h : acc = [] <;> simp [tokenizeAux, maxRuns, h]
  | cons c cs ih =>
    intro acc
    by_cases hc : isAlnumChar c
    · by_cases h : acc = []
      · subst h
        simp [tokenizeAux, hc, ih, maxRuns, List.takeWhile_cons, List.dropWhile_cons]
      · simp [tokenizeAux, hc, ih, h, maxRuns, List.takeWhile_cons, List.dropWhile_cons,
          List.append_assoc]
    · by_cases h : acc = []
      · subst h
        simp [tokenizeAux, hc, ih, maxRuns]
      · simp [tokenizeAux, hc, ih, h, maxRuns, List.takeWhile_cons, List.dropWhile_cons]

/-- `tokenize` computes exactly the maximal alphanumeric runs of the
lowercased input. -/
theorem tokenize_eq_maxRuns (s : List Char) : tokenize s = maxRuns (lowerStr s) := by
  have h := tokenizeAux_eq (lowerStr s) []
  simpa [tokenize] using h

/-- Every run produced by `maxRuns` is non-empty and purely alphanumeric. -/
theorem maxRuns_tokens : ∀ l : List Char, ∀ t ∈ maxRuns l,
    t ≠ [] ∧ ∀ c ∈ t, isAlnumChar c = true
  | [] => by simp [maxRuns]
  | c :: cs => by
    intro t ht
    by_cases hc : isAlnumChar c
    · rw [maxRuns, if_pos hc] at ht
      rcases List.mem_cons.mp ht with rfl | ht
      · refine ⟨by simp, ?_⟩
        intro a ha
        rcases List.mem_cons.mp ha with rfl | ha
        · exact hc
        · exact List.mem_takeWhile_imp ha
      · exact maxRuns_tokens (cs.dropWhile isAlnumChar) t ht
    · rw [maxRuns, if_neg hc] at ht
      exact maxRuns_tokens cs t ht
termination_by l => l.length
decreasing_by
  · simp only [List.length_cons]
    exact Nat.lt_succ_of_le (List.dropWhile_sublist _).length_le
  · simp only [List.length_cons]
    exact Nat.lt_succ_of_le (Nat.le_refl _)

/-- Claim C4: `tokenize` returns the ordered maximal runs of `[a-z0-9]`
characters of the lowercased input (all other characters act as
separators), with the two concrete examples of the specification; every
emitted token is non-empty and purely alphanumeric. -/
theorem c4_tokenize :
    (∀ s : List Char, tokenize s = maxRuns (lowerStr s)) ∧
    tokenize (chars "Hello, World! 123") = [chars "hello", chars "world", chars "123"] ∧
    tokenize (chars "") = [] ∧
    (∀ s : List Char, ∀ t ∈ tokenize s, t ≠ [] ∧ ∀ c ∈ t, isAlnumChar c = true) := by
  refine ⟨tokenize_eq_maxRuns, by decide, by decide, ?_⟩
  intro s t ht
  rw [tokenize_eq_maxRuns] at ht
  exact maxRuns_tokens _ t ht

/-- Witness for C4: the first token of the example input. -/
theorem c4_tokenize_witness :
    chars "hello" ≠ [] ∧ ∀ c ∈ chars "hello", isAlnumChar c = true :=
  c4_tokenize.2.2.2 (chars "Hello, World! 123") (chars "hello") (by decide)

/-- Claim C8: `write_report` writes at
`<output_dir>/<date>-ragops-eval.md`, creating the output directory and all
its parents, and overwrites whatever was at that path; writing twice on the
same UTC date targets the same path and leaves only the latest results'
rendering (the non-emptiness hypotheses keep the runs inside the regime
where the source's average computation does not raise). -/
theorem c8_report_overwrite (fs : FS) (dir : List String) (date : String)
    (r1 r2 : List QResult) (h1 : r1 ≠ []) (h2 : r2 ≠ []) :
    (write_report r1 fs dir date).files (reportPath dir date) =
      some (renderReport date r1) ∧
    (write_report r2 (write_report r1 fs dir date) dir date).files (reportPath dir date) =
      some (renderReport date r2) ∧
    (∀ q, q ≠ reportPath dir date →
      (write_report r2 (write_report r1 fs dir date) dir date).files q = fs.files q) ∧
    (∀ p, p ∈ initSegs dir →
      p ∈ (write_report r2 (write_report r1 fs dir date) dir date).dirs) := by
  refine ⟨?_, ?_, ?_, ?_⟩
  · simp [write_report]
  · simp [write_report]
  · intro q hq
    simp [write_report, hq]
  · intro p hp
    simp [write_report, hp]

/-- Witness for C8: two writes of sample results on the same date into an
empty filesystem. -/
theorem c8_report_overwrite_witness :
    (write_report [sampleResult] emptyFS ["reports"] "2026-10-12").files
        (reportPath ["reports"] "2026-10-12") =
      some (renderReport "2026-10-12" [sampleResult]) ∧
    (write_report [sampleResult, sampleResult]
        (write_report [sampleResult] emptyFS ["reports"] "2026-10-12")
        ["reports"] "2026-10-12").files (reportPath ["reports"] "2026-10-12") =
      some (renderReport "2026-10-12" [sampleResult, sampleResult]) ∧
    (∀ q, q ≠ reportPath ["reports"] "2026-10-12" →
      (write_report [sampleResult, sampleResult]
        (write_report [sampleResult] emptyFS ["reports"] "2026-10-12")
        ["reports"] "2026-10-12").files q = emptyFS.files q) ∧
    (∀ p, p ∈ initSegs ["reports"] →
      p ∈ (write_report [sampleResult, sampleResult]
        (write_report [sampleResult] emptyFS ["reports"] "2026-10-12")
        ["reports"] "2026-10-12").dirs) :=
  c8_report_overwrite emptyFS ["reports"] "2026-10-12"
    [sampleResult] [sampleResult, sampleResult] (by simp) (by simp)

end LLMOps
